import Mathlib

/-!
Shallow embedding of the post-processing core of the geoclaw-landspill
repository, together with theorems checking the natural-language
specification against the code.

Modelling conventions:
* Real-valued quantities (coordinates, cell sizes, field values, times,
  tolerances) are modelled with `ℚ`, so that all definitions are
  executable and all value comparisons are decidable.
* A Clawpack `Solution` (one time frame) is a time plus a list of
  `State`s; each `State` carries its `Patch` geometry, the primary field
  `q[0]` and the auxiliary field `aux[0]` as 2-D lists indexed `[ix][iy]`
  as in the source.
* Reading frames from disk is modelled by a function from frame numbers
  to the in-memory data; iteration over `range(frame_bg, frame_ed)` is
  `List.range' frame_bg (frame_ed - frame_bg)`.
* The external library call `rasterio.merge.merge` is not code of this
  repository; it is kept abstract as a function parameter `MergeFn`, with
  its documented behaviours (empty-stack failure, identity resampling)
  supplied as hypotheses where a claim needs them.
-/

namespace GeoclawLandspill

/-- A 2-D array of rational values (a raster band or a field array). -/
abbrev Grid := List (List ℚ)

/-- Geometry of one AMR grid patch, mirroring `pyclaw`'s patch attributes
used by the post-processing code: `level`, `lower_global`, `upper_global`,
`delta` and `num_cells_global`. -/
structure Patch where
  level : Nat
  lower_global : ℚ × ℚ
  upper_global : ℚ × ℚ
  delta : ℚ × ℚ
  num_cells_global : Nat × Nat
deriving DecidableEq, Repr

/-- One `pyclaw` state: a patch plus its primary field `q[0]` and (possibly
empty) auxiliary field `aux[0]`. -/
structure State where
  patch : Patch
  q0 : Grid
  aux0 : Grid
deriving DecidableEq, Repr

/-- One solution frame: simulation time `t` and the list of states, in file
order. -/
structure Solution where
  t : ℚ
  states : List State
deriving DecidableEq, Repr

/-- The domain-level errors raised by the scanning helpers in
`gclandspill._misc`. -/
inductive MiscError where
  | amrLevelError
  | noFrameDataError
deriving DecidableEq, Repr

/-! ## ParallelFramePipeline chunking (plot.py `plot_depth`, plottopo.py `plot_topo`)

The source computes `per_proc = (frame_ed - frame_bg) // nprocs`, gives the
first child the extra `(frame_ed - frame_bg) % nprocs` frames, and each
later child starts where the previous one ended. -/

/-- The chunks after the first one: each starts at the previous chunk's end
and spans `per_proc` frames (the `for _ in range(nprocs-1)` loop). -/
def chunk_rest (per_proc : Nat) : Nat → Nat → List (Nat × Nat)
  | 0, _ => []
  | k + 1, start => (start, start + per_proc) :: chunk_rest per_proc k (start + per_proc)

/-- The frame-range chunking used by `plot_depth` and `plot_topo`: the list
of `(frame_bg, frame_ed)` half-open sub-ranges handed to the worker
processes. -/
def chunkFrames (frame_bg frame_ed nprocs : Nat) : List (Nat × Nat) :=
  let per_proc := (frame_ed - frame_bg) / nprocs
  let first_ed := frame_bg + per_proc + (frame_ed - frame_bg) % nprocs
  (frame_bg, first_ed) :: chunk_rest per_proc (nprocs - 1) first_ed

/-! ## FrameRangeResolver (`_misc.extract_info_from_setrun` / `test_and_set_frame_ed`) -/

/-- The run-configuration fields consumed by the frame-range resolver
(`rundata.clawdata`). -/
structure ClawData where
  output_style : Nat
  num_output_times : Nat
  output_t0 : Bool
  output_times : List ℚ
  total_steps : Nat
  output_step_interval : Nat
deriving DecidableEq, Repr

/-- `test_and_set_frame_ed` from `_misc.extract_info_from_setrun`: when the
user supplied `frame_ed` it is incremented by one (so it can be used as the
`end` of a `range`); otherwise a default is computed from the output style.
Output styles other than 1, 2, 3 leave the value unset (`none`). -/
def test_and_set_frame_ed (frame_ed : Option Nat) (clawdata : ClawData) : Option Nat :=
  match frame_ed with
  | some fe => some (fe + 1)
  | none =>
    if clawdata.output_style = 1 then
      some (clawdata.num_output_times + (if clawdata.output_t0 then 1 else 0))
    else if clawdata.output_style = 2 then
      some clawdata.output_times.length
    else if clawdata.output_style = 3 then
      some (clawdata.total_steps / clawdata.output_step_interval +
        (if clawdata.output_t0 then 1 else 0))
    else none

/-- The frame-range resolver as seen by callers: `frame_bg` is never touched
by `extract_info_from_setrun` (or by the equivalent inline block in
`plot_depth`), and `frame_ed` goes through `test_and_set_frame_ed`. -/
def resolveFrameRange (frame_bg : Nat) (frame_ed : Option Nat) (clawdata : ClawData) :
    Nat × Option Nat :=
  (frame_bg, test_and_set_frame_ed frame_ed clawdata)

/-! ## BoundingBoxEstimator: `calc.get_soln_res`

The source scans frames `range(frame_bg, frame_ed)` in order and, inside a
frame, scans `soln.states` in order; the first patch whose `level` matches
yields its `delta`, otherwise `AMRLevelError` is raised after the loop. -/

/-- The inner loop of `get_soln_res` over the remaining frame numbers. -/
def get_soln_res_go (soln_dir : Nat → Solution) (level : Nat) :
    List Nat → Except MiscError (ℚ × ℚ)
  | [] => .error .amrLevelError
  | fno :: rest =>
    match (soln_dir fno).states.find? (fun s => s.patch.level == level) with
    | some s => .ok s.patch.delta
    | none => get_soln_res_go soln_dir level rest

/-- `calc.get_soln_res`: the `delta` of the first patch found at `level`
while scanning frames `frame_bg, ..., frame_ed - 1` in order, or
`AMRLevelError` if none exists. -/
def get_soln_res (soln_dir : Nat → Solution) (frame_bg frame_ed level : Nat) :
    Except MiscError (ℚ × ℚ) :=
  get_soln_res_go soln_dir level (List.range' frame_bg (frame_ed - frame_bg))

/-- All states of the scanned frame range, concatenated in scan order
(frames in ascending order, states in file order). -/
def scannedStates (soln_dir : Nat → Solution) (frame_bg frame_ed : Nat) : List State :=
  (List.range' frame_bg (frame_ed - frame_bg)).flatMap (fun fno => (soln_dir fno).states)

/-! ## BoundingBoxEstimator: `calc.get_topo_min` / `calc.get_topo_max`

The running extremum starts at `±inf` and is updated by every patch at the
requested level inside frames whose aux file exists; `float("inf")` is
modelled by `Option ℚ` with `none` playing the role of the untouched
sentinel.  A frame's aux-file presence is the `Bool` in the frame data. -/

/-- `min(vmin, x)` where `vmin` may still be the `inf` sentinel and `x` may
be the minimum of an empty array (which contributes nothing). -/
def minOptQ : Option ℚ → Option ℚ → Option ℚ
  | none, b => b
  | some a, none => some a
  | some a, some b => some (min a b)

/-- `max(vmax, x)` with the `-inf` sentinel modelled by `none`. -/
def maxOptQ : Option ℚ → Option ℚ → Option ℚ
  | none, b => b
  | some a, none => some a
  | some a, some b => some (max a b)

/-- Minimum of a patch's `aux[0]` array (`none` when the array is empty). -/
def stateAuxMin (s : State) : Option ℚ := s.aux0.flatten.min?

/-- Maximum of a patch's `aux[0]` array (`none` when the array is empty). -/
def stateAuxMax (s : State) : Option ℚ := s.aux0.flatten.max?

/-- One frame's contribution to the running minimum of `get_topo_min`:
skipped entirely when the frame has no aux file, otherwise every state at
`level` folds its `aux[0].min()` into the accumulator. -/
def topoMinFrameStep (level : Nat) (acc : Option ℚ) (frame : Bool × Solution) : Option ℚ :=
  if frame.1 then
    frame.2.states.foldl
      (fun a s => if s.patch.level = level then minOptQ a (stateAuxMin s) else a) acc
  else acc

/-- One frame's contribution to the running maximum of `get_topo_max`. -/
def topoMaxFrameStep (level : Nat) (acc : Option ℚ) (frame : Bool × Solution) : Option ℚ :=
  if frame.1 then
    frame.2.states.foldl
      (fun a s => if s.patch.level = level then maxOptQ a (stateAuxMax s) else a) acc
  else acc

/-- `calc.get_topo_min`: scans the frame range, folding the aux minima of
patches at `level` in aux-carrying frames; raises `NoFrameDataError` when
the running minimum is still the `inf` sentinel at the end. -/
def get_topo_min (soln_dir : Nat → Bool × Solution) (frame_bg frame_ed level : Nat) :
    Except MiscError ℚ :=
  match (List.range' frame_bg (frame_ed - frame_bg)).foldl
      (fun acc fno => topoMinFrameStep level acc (soln_dir fno)) none with
  | none => .error .noFrameDataError
  | some v => .ok v

/-- `calc.get_topo_max`: like `get_topo_min` with the maximum. -/
def get_topo_max (soln_dir : Nat → Bool × Solution) (frame_bg frame_ed level : Nat) :
    Except MiscError ℚ :=
  match (List.range' frame_bg (frame_ed - frame_bg)).foldl
      (fun acc fno => topoMaxFrameStep level acc (soln_dir fno)) none with
  | none => .error .noFrameDataError
  | some v => .ok v

/-- The auxiliary values actually contributed over the scanned range: values
of `aux[0]` of states at `level` inside frames whose aux file exists, in
scan order. -/
def topoVals (soln_dir : Nat → Bool × Solution) (frame_bg frame_ed level : Nat) : List ℚ :=
  (List.range' frame_bg (frame_ed - frame_bg)).flatMap (fun fno =>
    if (soln_dir fno).1 then
      ((soln_dir fno).2.states.filter (fun s => s.patch.level == level)).flatMap
        (fun s => s.aux0.flatten)
    else [])

/-! ## VolumeAccumulator: `calc.get_total_volume`

For each frame the row starts as `n_levels` zeros and every state adds
`state.q[0].sum() * patch.delta[0] * patch.delta[1]` at index
`patch.level - 1`. -/

/-- `state.q[0].sum()`. -/
def q0sum (s : State) : ℚ := s.q0.flatten.sum

/-- `ans[ifno][p.level-1] += state.q[0].sum() * p.delta[0] * p.delta[1]`
for one state. -/
def volumeRowStep (row : List ℚ) (s : State) : List ℚ :=
  row.set (s.patch.level - 1)
    (row.getD (s.patch.level - 1) 0 + q0sum s * s.patch.delta.1 * s.patch.delta.2)

/-- `calc.get_total_volume`: the `(frame count) × n_levels` table of per-level
fluid volumes computed from native-resolution patch data. -/
def get_total_volume (soln_dir : Nat → Solution) (frame_bg frame_ed n_levels : Nat) :
    List (List ℚ) :=
  (List.range' frame_bg (frame_ed - frame_bg)).map (fun fno =>
    (soln_dir fno).states.foldl volumeRowStep (List.replicate n_levels 0))

/-- A synthetic patch whose `q[0]` is an `nx × ny` array of the constant
value `v` at cell size `dx × dy` on AMR level `lv`. -/
def constPatchState (lv : Nat) (v : ℚ) (nx ny : Nat) (dx dy : ℚ) : State :=
  { patch :=
      { level := lv, lower_global := (0, 0), upper_global := (dx * nx, dy * ny),
        delta := (dx, dy), num_cells_global := (nx, ny) }
    q0 := List.replicate nx (List.replicate ny v)
    aux0 := [] }

/-! ## MosaicInterpolator: `calc.interpolate`

The source builds one in-memory single-band raster per patch at `level`
(data `state.q[0].T[::-1, :]`, affine from the patch's upper-left corner and
`delta`), calls `rasterio.merge.merge` on the stack, turns the library's
`IndexError("list index out of range")` into `NoWetCellError`, re-raises any
other exception raw, masks cells below `dry_tol` to `nodata`, and closes the
in-memory rasters.  `rasterio.merge.merge` is an external library call and
is kept abstract as a `MergeFn` parameter (with the output `bounds`, `res`,
`nodata` and resampling arguments regarded as fixed inside it). -/

/-- An exception escaping the underlying merge call: either a Python
`IndexError` carrying its message, or any other exception. -/
inductive MergeExc where
  | indexError (msg : String)
  | otherExc
deriving DecidableEq, Repr

/-- An exception escaping `interpolate`: the domain-level `NoWetCellError`,
or a raw merge exception re-raised unchanged. -/
inductive InterpError where
  | noWetCellError
  | reraised (e : MergeExc)
deriving DecidableEq, Repr

/-- One temporary in-memory single-band raster built from a patch. -/
structure ChildRaster where
  originWest : ℚ
  originNorth : ℚ
  dx : ℚ
  dy : ℚ
  height : Nat
  width : Nat
  data : Grid
deriving DecidableEq, Repr

/-- Abstract model of the external `rasterio.merge.merge` call (with the
output bounds, resolution, nodata and resampling kernel fixed): it either
returns a merged band or raises. -/
abbrev MergeFn := List ChildRaster → Except MergeExc Grid

/-- The orientation applied to a patch's field before writing it into its
in-memory raster: `q[0].T[::-1, :]` (transpose, then flip so row 0 is the
northernmost row). -/
def orient (q0 : Grid) : Grid := q0.transpose.reverse

/-- The in-memory raster built for one state: affine
`from_origin(lower_global[0], upper_global[1], delta[0], delta[1])`, shape
`num_cells_global[1] × num_cells_global[0]`, data `q[0].T[::-1, :]`. -/
def childRasterOf (s : State) : ChildRaster :=
  { originWest := s.patch.lower_global.1
    originNorth := s.patch.upper_global.2
    dx := s.patch.delta.1
    dy := s.patch.delta.2
    height := s.patch.num_cells_global.2
    width := s.patch.num_cells_global.1
    data := orient s.q0 }

/-- The stack of in-memory rasters fed to the merge: one per state at the
target level, in file order. -/
def child_rasters (soln : Solution) (level : Nat) : List ChildRaster :=
  (soln.states.filter (fun s => s.patch.level == level)).map childRasterOf

/-- `dst[dst < dry_tol] = nodata` applied to the merged band. -/
def maskGrid (dry_tol nodata : ℚ) (g : Grid) : Grid :=
  g.map (fun row => row.map (fun v => if v < dry_tol then nodata else v))

deriving instance DecidableEq for Except

/-- Outcome of one `interpolate` call, together with the resource account:
how many temporary in-memory rasters the call opened and how many it closed
before control left the function. -/
structure InterpResult where
  result : Except InterpError Grid
  rastersOpened : Nat
  rastersClosed : Nat
deriving DecidableEq, Repr

/-- `calc.interpolate`: build the per-patch raster stack, merge it, convert
the library's empty-stack `IndexError("list index out of range")` into
`NoWetCellError` (re-raising anything else raw), mask cells below `dry_tol`
to `nodata`, and close the temporary rasters.  The closing loop sits after
the masking in the source, so it only runs on the successful path. -/
def interpolate (merge : MergeFn) (soln : Solution) (level : Nat) (dry_tol nodata : ℚ) :
    InterpResult :=
  match merge (child_rasters soln level) with
  | .error (.indexError msg) =>
    if msg = "list index out of range" then
      { result := .error .noWetCellError
        rastersOpened := (child_rasters soln level).length, rastersClosed := 0 }
    else
      { result := .error (.reraised (.indexError msg))
        rastersOpened := (child_rasters soln level).length, rastersClosed := 0 }
  | .error .otherExc =>
    { result := .error (.reraised .otherExc)
      rastersOpened := (child_rasters soln level).length, rastersClosed := 0 }
  | .ok dst =>
    { result := .ok (maskGrid dry_tol nodata dst)
      rastersOpened := (child_rasters soln level).length
      rastersClosed := (child_rasters soln level).length }

/-! ## TimeSeriesRasterWriter: `netcdf.write_soln_to_nc`

The writer loops over `enumerate(range(frame_bg, frame_ed))`, writes the
frame's simulation time into `time[band]` first, then tries the mosaic
interpolation; `NoWetCellError` is caught and an all-`nodata` slice written
instead, while any other exception propagates and aborts the loop. -/

/-- The state of the open NetCDF file: the `time` coordinate values and the
`depth` bands written so far, in band order. -/
structure NCFile where
  time : List ℚ
  depth : List Grid
deriving DecidableEq, Repr

/-- The all-`nodata` slice `root["depth"][band, :, :] = nodata` broadcast
over the file's fixed `nrows × ncols` raster shape. -/
def allNodataSlice (nrows ncols : Nat) (nodata : ℚ) : Grid :=
  List.replicate nrows (List.replicate ncols nodata)

/-- One iteration of the writer loop: record the time, then either the
interpolated band, the substituted all-`nodata` band (on `NoWetCellError`),
or propagate the exception. -/
def write_frame (merge : MergeFn) (level : Nat) (dry_tol nodata : ℚ) (nrows ncols : Nat)
    (nc : NCFile) (soln : Solution) : NCFile × Option InterpError :=
  let nc1 : NCFile := { nc with time := nc.time ++ [soln.t] }
  match (interpolate merge soln level dry_tol nodata).result with
  | .ok dst => ({ nc1 with depth := nc1.depth ++ [dst] }, none)
  | .error .noWetCellError =>
    ({ nc1 with depth := nc1.depth ++ [allNodataSlice nrows ncols nodata] }, none)
  | .error e => (nc1, some e)

/-- The writer loop over the remaining frame numbers; a propagated exception
stops the loop immediately. -/
def write_soln_to_nc_go (merge : MergeFn) (soln_dir : Nat → Solution) (level : Nat)
    (dry_tol nodata : ℚ) (nrows ncols : Nat) :
    List Nat → NCFile → NCFile × Option InterpError
  | [], nc => (nc, none)
  | fno :: rest, nc =>
    match write_frame merge level dry_tol nodata nrows ncols nc (soln_dir fno) with
    | (nc1, none) => write_soln_to_nc_go merge soln_dir level dry_tol nodata nrows ncols rest nc1
    | (nc1, some e) => (nc1, some e)

/-- `netcdf.write_soln_to_nc`: fill the bands of an (initially empty) file
from frames `frame_bg, ..., frame_ed - 1`, returning the file state and the
exception that aborted the loop, if any. -/
def write_soln_to_nc (merge : MergeFn) (soln_dir : Nat → Solution)
    (frame_bg frame_ed level : Nat) (dry_tol nodata : ℚ) (nrows ncols : Nat) :
    NCFile × Option InterpError :=
  write_soln_to_nc_go merge soln_dir level dry_tol nodata nrows ncols
    (List.range' frame_bg (frame_ed - frame_bg)) ⟨[], []⟩

/-! ## Helper lemmas for the chunking law -/

theorem chunk_rest_length (per : Nat) : ∀ (k start : Nat), (chunk_rest per k start).length = k
  | 0, _ => rfl
  | k + 1, start => by simp [chunk_rest, chunk_rest_length per k]

theorem chunk_rest_getD (per : Nat) :
    ∀ (k start j : Nat), j < k →
      (chunk_rest per k start).getD j (0, 0) = (start + per * j, start + per * (j + 1))
  | 0, _, j, h => absurd h (Nat.not_lt_zero j)
  | k + 1, start, 0, _ => by simp [chunk_rest]
  | k + 1, start, j + 1, h => by
    have ih := chunk_rest_getD per k (start + per) j (Nat.lt_of_succ_lt_succ h)
    simp only [chunk_rest, List.getD_cons_succ, ih, Prod.mk.injEq]
    constructor <;> ring

theorem chunk_rest_sizes (per : Nat) :
    ∀ (k start : Nat), ((chunk_rest per k start).map (fun c => c.2 - c.1)).sum = k * per
  | 0, _ => by simp [chunk_rest]
  | k + 1, start => by
    simp only [chunk_rest, List.map_cons, List.sum_cons, chunk_rest_sizes per k (start + per)]
    have h : start + per - start = per := by omega
    rw [h, Nat.succ_mul, Nat.add_comm (k * per) per]

theorem chunkFrames_getD_zero (frame_bg frame_ed nprocs : Nat) :
    (chunkFrames frame_bg frame_ed nprocs).getD 0 (0, 0) =
      (frame_bg, frame_bg + (frame_ed - frame_bg) / nprocs +
        (frame_ed - frame_bg) % nprocs) := rfl

theorem chunkFrames_getD_succ (frame_bg frame_ed nprocs j : Nat) (h : j < nprocs - 1) :
    (chunkFrames frame_bg frame_ed nprocs).getD (j + 1) (0, 0) =
      (frame_bg + (frame_ed - frame_bg) / nprocs + (frame_ed - frame_bg) % nprocs +
          (frame_ed - frame_bg) / nprocs * j,
        frame_bg + (frame_ed - frame_bg) / nprocs + (frame_ed - frame_bg) % nprocs +
          (frame_ed - frame_bg) / nprocs * (j + 1)) := by
  simp only [chunkFrames, List.getD_cons_succ]
  exact chunk_rest_getD _ _ _ j h

/-- C5: for every frame range `[frame_bg, frame_ed)` of size `R` and every
worker count `w ≥ 1`, the chunking used by the parallel plotting pipeline
(`plot_depth` / `plot_topo`) produces exactly `w` contiguous, non-overlapping
chunks covering `[frame_bg, frame_ed)`: the first chunk has size
`R / w + R % w`, every later chunk has size `R / w`, each chunk begins where
the previous one ends, and the chunk sizes sum to `R`. -/
theorem C5_parallel_chunking (frame_bg frame_ed nprocs : Nat)
    (hbe : frame_bg ≤ frame_ed) (hw : 1 ≤ nprocs) :
    (chunkFrames frame_bg frame_ed nprocs).length = nprocs ∧
    ((chunkFrames frame_bg frame_ed nprocs).getD 0 (0, 0)).1 = frame_bg ∧
    ((chunkFrames frame_bg frame_ed nprocs).getD (nprocs - 1) (0, 0)).2 = frame_ed ∧
    ((chunkFrames frame_bg frame_ed nprocs).getD 0 (0, 0)).2 -
        ((chunkFrames frame_bg frame_ed nprocs).getD 0 (0, 0)).1 =
      (frame_ed - frame_bg) / nprocs + (frame_ed - frame_bg) % nprocs ∧
    (∀ i, 1 ≤ i → i < nprocs →
      ((chunkFrames frame_bg frame_ed nprocs).getD i (0, 0)).2 -
          ((chunkFrames frame_bg frame_ed nprocs).getD i (0, 0)).1 =
        (frame_ed - frame_bg) / nprocs) ∧
    (∀ i, i + 1 < nprocs →
      ((chunkFrames frame_bg frame_ed nprocs).getD i (0, 0)).2 =
        ((chunkFrames frame_bg frame_ed nprocs).getD (i + 1) (0, 0)).1) ∧
    ((chunkFrames frame_bg frame_ed nprocs).map (fun c => c.2 - c.1)).sum =
      frame_ed - frame_bg := by
  obtain ⟨k, rfl⟩ : ∃ k, nprocs = k + 1 := ⟨nprocs - 1, by omega⟩
  refine ⟨?_, ?_, ?_, ?_, ?_, ?_, ?_⟩
  · simp [chunkFrames, chunk_rest_length]
  · rfl
  · match k with
    | 0 =>
      simp only [show (0 : Nat) + 1 - 1 = 0 from rfl, show (0 : Nat) + 1 = 1 from rfl,
        chunkFrames_getD_zero, Nat.div_one, Nat.mod_one]
      omega
    | j + 1 =>
      rw [show j + 1 + 1 - 1 = j + 1 from rfl,
        chunkFrames_getD_succ frame_bg frame_ed (j + 1 + 1) j (by omega)]
      have hdm := Nat.div_add_mod (frame_ed - frame_bg) (j + 1 + 1)
      have hx : (j + 1 + 1) * ((frame_ed - frame_bg) / (j + 1 + 1)) =
          (frame_ed - frame_bg) / (j + 1 + 1) +
            (frame_ed - frame_bg) / (j + 1 + 1) * (j + 1) := by ring
      rw [hx] at hdm
      generalize (frame_ed - frame_bg) / (j + 1 + 1) * (j + 1) = a at *
      generalize (frame_ed - frame_bg) / (j + 1 + 1) = p at *
      omega
  · rw [chunkFrames_getD_zero]
    generalize (frame_ed - frame_bg) / (k + 1) = p
    generalize (frame_ed - frame_bg) % (k + 1) = r
    omega
  · intro i h1 hik
    obtain ⟨j, rfl⟩ : ∃ j, i = j + 1 := ⟨i - 1, by omega⟩
    rw [chunkFrames_getD_succ frame_bg frame_ed (k + 1) j (by omega)]
    have hx : (frame_ed - frame_bg) / (k + 1) * (j + 1) =
        (frame_ed - frame_bg) / (k + 1) * j + (frame_ed - frame_bg) / (k + 1) := by ring
    rw [hx]
    generalize (frame_ed - frame_bg) / (k + 1) * j = a
    generalize (frame_ed - frame_bg) / (k + 1) = p
    omega
  · intro i hik
    match i with
    | 0 =>
      rw [chunkFrames_getD_zero, chunkFrames_getD_succ frame_bg frame_ed (k + 1) 0 (by omega)]
      simp
    | j + 1 =>
      rw [chunkFrames_getD_succ frame_bg frame_ed (k + 1) j (by omega),
        chunkFrames_getD_succ frame_bg frame_ed (k + 1) (j + 1) (by omega)]
  · simp only [chunkFrames, List.map_cons, List.sum_cons, chunk_rest_sizes,
      Nat.add_sub_cancel]
    have hdm := Nat.div_add_mod (frame_ed - frame_bg) (k + 1)
    have hx : (k + 1) * ((frame_ed - frame_bg) / (k + 1)) =
        k * ((frame_ed - frame_bg) / (k + 1)) + (frame_ed - frame_bg) / (k + 1) := by ring
    rw [hx] at hdm
    generalize k * ((frame_ed - frame_bg) / (k + 1)) = a at *
    generalize (frame_ed - frame_bg) / (k + 1) = p at *
    omega

/-- Witness for the chunking law at `frame_bg = 2`, `frame_ed = 9`,
`nprocs = 3`: the hypotheses hold and the chunks are `[2,5), [5,7), [7,9)`. -/
theorem C5_parallel_chunking_witness :
    2 ≤ 9 ∧ 1 ≤ 3 ∧ (chunkFrames 2 9 3).length = 3 ∧
    ((chunkFrames 2 9 3).map (fun c => c.2 - c.1)).sum = 9 - 2 :=
  ⟨by decide, by decide, (C5_parallel_chunking 2 9 3 (by decide) (by decide)).1,
    (C5_parallel_chunking 2 9 3 (by decide) (by decide)).2.2.2.2.2.2⟩

/-- A concrete style-1 run configuration used in the resolver counterexample. -/
def sampleClawData : ClawData :=
  { output_style := 1, num_output_times := 10, output_t0 := false,
    output_times := [], total_steps := 0, output_step_interval := 1 }

/-- C6 counterexample: with explicitly supplied `(frame_bg, frame_ed) = (0, 5)`
the resolver returns `frame_ed = 6`, not `5` — the supplied end frame is not
returned unchanged. -/
theorem C6_frame_range_counterexample :
    resolveFrameRange 0 (some 5) sampleClawData ≠ (0, some 5) := by decide

/-- C6 (amended): for every configuration and every explicitly supplied pair
`(frame_bg, frame_ed)`, the resolver returns `frame_bg` unchanged and
`frame_ed` incremented by exactly one (turning the inclusive user-facing end
frame into an exclusive `range` bound), regardless of the configured output
style. -/
theorem C6_frame_range_amended (frame_bg fe : Nat) (clawdata : ClawData) :
    resolveFrameRange frame_bg (some fe) clawdata = (frame_bg, some (fe + 1)) := rfl

/-! ## C7: `get_soln_res` characterization -/

theorem get_soln_res_go_eq (soln_dir : Nat → Solution) (level : Nat) :
    ∀ fnos : List Nat,
      get_soln_res_go soln_dir level fnos =
        match (fnos.flatMap (fun fno => (soln_dir fno).states)).find?
            (fun s => s.patch.level == level) with
        | some s => .ok s.patch.delta
        | none => .error .amrLevelError
  | [] => rfl
  | fno :: rest => by
    rw [get_soln_res_go, List.flatMap_cons, List.find?_append]
    rcases h : (soln_dir fno).states.find? (fun s => s.patch.level == level) with _ | s
    · simp only [h, Option.none_or]
      exact get_soln_res_go_eq soln_dir level rest
    · simp only [h]
      rfl

/-- C7: `get_soln_res` raises `AMRLevelError` if and only if no patch at the
requested level exists in any frame of the scanned range; otherwise it
returns the `delta` of the first patch at that level encountered while
scanning frames in order. -/
theorem C7_get_soln_res (soln_dir : Nat → Solution) (frame_bg frame_ed level : Nat) :
    (get_soln_res soln_dir frame_bg frame_ed level = .error .amrLevelError ↔
      ∀ s ∈ scannedStates soln_dir frame_bg frame_ed, s.patch.level ≠ level) ∧
    ∀ s, (scannedStates soln_dir frame_bg frame_ed).find?
        (fun s => s.patch.level == level) = some s →
      get_soln_res soln_dir frame_bg frame_ed level = .ok s.patch.delta := by
  have hkey := get_soln_res_go_eq soln_dir level (List.range' frame_bg (frame_ed - frame_bg))
  have hsc : scannedStates soln_dir frame_bg frame_ed =
      (List.range' frame_bg (frame_ed - frame_bg)).flatMap (fun fno => (soln_dir fno).states) :=
    rfl
  rw [get_soln_res, hkey, ← hsc]
  rcases h : (scannedStates soln_dir frame_bg frame_ed).find?
      (fun s => s.patch.level == level) with _ | s
  · simp only [h]
    rw [List.find?_eq_none] at h
    refine ⟨⟨fun _ s hs => by simpa using h s hs, fun _ => by trivial⟩, ?_⟩
    intro s hs
    exact absurd hs (by simp)
  · simp only [h]
    refine ⟨⟨fun habs => absurd habs (by simp), fun hall => ?_⟩, ?_⟩
    · have hmem := List.mem_of_find?_eq_some h
      have hp := List.find?_some h
      exact absurd (by simpa using hp) (hall s hmem)
    · intro s' hs'
      cases hs'
      rfl

/-- A one-patch state at AMR level 1 with cell size `1 × 1`, used as concrete
input by several witnesses. -/
def s1 : State :=
  { patch := { level := 1, lower_global := (0, 0), upper_global := (1, 2), delta := (1, 1),
               num_cells_global := (1, 2) }
    q0 := [[1, 2]]
    aux0 := [[3, 4]] }

/-- Witness for C7: scanning two frames that both hold the level-1 patch `s1`
returns its `delta = (1, 1)`. -/
theorem C7_get_soln_res_witness :
    get_soln_res (fun _ => ⟨0, [s1]⟩) 0 2 1 = .ok (1, 1) :=
  (C7_get_soln_res (fun _ => ⟨0, [s1]⟩) 0 2 1).2 s1 (by decide)

/-! ## C10: `get_topo_min` / `get_topo_max` characterization -/

theorem minOptQ_eq_none (a b : Option ℚ) : minOptQ a b = none ↔ a = none ∧ b = none := by
  cases a <;> cases b <;> simp [minOptQ]

theorem maxOptQ_eq_none (a b : Option ℚ) : maxOptQ a b = none ↔ a = none ∧ b = none := by
  cases a <;> cases b <;> simp [maxOptQ]

theorem topoMin_states_fold_none (level : Nat) :
    ∀ (states : List State) (acc : Option ℚ),
      states.foldl (fun a s => if s.patch.level = level then minOptQ a (stateAuxMin s) else a)
          acc = none ↔
        acc = none ∧
          ((states.filter (fun s => s.patch.level == level)).flatMap
            (fun s => s.aux0.flatten)) = []
  | [], acc => by simp
  | s :: rest, acc => by
    by_cases hl : s.patch.level = level
    · rw [List.foldl_cons, if_pos hl, List.filter_cons_of_pos (by simpa using hl),
        topoMin_states_fold_none level rest (minOptQ acc (stateAuxMin s)),
        minOptQ_eq_none]
      simp [stateAuxMin, List.min?_eq_none_iff, and_assoc]
    · rw [List.foldl_cons, if_neg hl, List.filter_cons_of_neg (by simpa using hl),
        topoMin_states_fold_none level rest acc]

theorem topoMax_states_fold_none (level : Nat) :
    ∀ (states : List State) (acc : Option ℚ),
      states.foldl (fun a s => if s.patch.level = level then maxOptQ a (stateAuxMax s) else a)
          acc = none ↔
        acc = none ∧
          ((states.filter (fun s => s.patch.level == level)).flatMap
            (fun s => s.aux0.flatten)) = []
  | [], acc => by simp
  | s :: rest, acc => by
    by_cases hl : s.patch.level = level
    · rw [List.foldl_cons, if_pos hl, List.filter_cons_of_pos (by simpa using hl),
        topoMax_states_fold_none level rest (maxOptQ acc (stateAuxMax s)),
        maxOptQ_eq_none]
      simp [stateAuxMax, List.max?_eq_none_iff, and_assoc]
    · rw [List.foldl_cons, if_neg hl, List.filter_cons_of_neg (by simpa using hl),
        topoMax_states_fold_none level rest acc]

/-- One frame's contribution to `topoVals`. -/
def topoFrameVals (soln_dir : Nat → Bool × Solution) (level fno : Nat) : List ℚ :=
  if (soln_dir fno).1 then
    ((soln_dir fno).2.states.filter (fun s => s.patch.level == level)).flatMap
      (fun s => s.aux0.flatten)
  else []

theorem topoMin_frames_fold_none (soln_dir : Nat → Bool × Solution) (level : Nat) :
    ∀ (fnos : List Nat) (acc : Option ℚ),
      fnos.foldl (fun acc fno => topoMinFrameStep level acc (soln_dir fno)) acc = none ↔
        acc = none ∧ fnos.flatMap (topoFrameVals soln_dir level) = []
  | [], acc => by simp
  | fno :: rest, acc => by
    rw [List.foldl_cons, List.flatMap_cons,
      topoMin_frames_fold_none soln_dir level rest (topoMinFrameStep level acc (soln_dir fno))]
    unfold topoMinFrameStep topoFrameVals
    by_cases ha : (soln_dir fno).1
    · rw [if_pos ha, if_pos ha, topoMin_states_fold_none]
      simp [and_assoc]
    · rw [if_neg ha, if_neg ha]
      simp

theorem topoMax_frames_fold_none (soln_dir : Nat → Bool × Solution) (level : Nat) :
    ∀ (fnos : List Nat) (acc : Option ℚ),
      fnos.foldl (fun acc fno => topoMaxFrameStep level acc (soln_dir fno)) acc = none ↔
        acc = none ∧ fnos.flatMap (topoFrameVals soln_dir level) = []
  | [], acc => by simp
  | fno :: rest, acc => by
    rw [List.foldl_cons, List.flatMap_cons,
      topoMax_frames_fold_none soln_dir level rest (topoMaxFrameStep level acc (soln_dir fno))]
    unfold topoMaxFrameStep topoFrameVals
    by_cases ha : (soln_dir fno).1
    · rw [if_pos ha, if_pos ha, topoMax_states_fold_none]
      simp [and_assoc]
    · rw [if_neg ha, if_neg ha]
      simp

/-- C10: `get_topo_min` and `get_topo_max` raise `NoFrameDataError` exactly
when no patch at the requested level contributed any auxiliary value over the
scanned range — in particular also when some frames do carry auxiliary data
but none of their patches is at the requested level, not only when no frame
in the range carries auxiliary data at all. -/
theorem C10_topo_extrema (soln_dir : Nat → Bool × Solution) (frame_bg frame_ed level : Nat) :
    (get_topo_min soln_dir frame_bg frame_ed level = .error .noFrameDataError ↔
      topoVals soln_dir frame_bg frame_ed level = []) ∧
    (get_topo_max soln_dir frame_bg frame_ed level = .error .noFrameDataError ↔
      topoVals soln_dir frame_bg frame_ed level = []) := by
  have hv : topoVals soln_dir frame_bg frame_ed level =
      (List.range' frame_bg (frame_ed - frame_bg)).flatMap (topoFrameVals soln_dir level) := by
    unfold topoVals topoFrameVals
    rfl
  constructor
  · unfold get_topo_min
    have hmin := topoMin_frames_fold_none soln_dir level
      (List.range' frame_bg (frame_ed - frame_bg)) none
    rcases hfold : (List.range' frame_bg (frame_ed - frame_bg)).foldl
        (fun acc fno => topoMinFrameStep level acc (soln_dir fno)) none with _ | v
    · rw [hfold] at hmin
      simp only [hv]
      simpa using hmin
    · rw [hfold] at hmin
      simp only [hv]
      constructor
      · intro habs
        exact absurd habs (by simp)
      · intro hnil
        exact absurd (hmin.mpr ⟨rfl, hnil⟩) (by simp)
  · unfold get_topo_max
    have hmax := topoMax_frames_fold_none soln_dir level
      (List.range' frame_bg (frame_ed - frame_bg)) none
    rcases hfold : (List.range' frame_bg (frame_ed - frame_bg)).foldl
        (fun acc fno => topoMaxFrameStep level acc (soln_dir fno)) none with _ | v
    · rw [hfold] at hmax
      simp only [hv]
      simpa using hmax
    · rw [hfold] at hmax
      simp only [hv]
      constructor
      · intro habs
        exact absurd habs (by simp)
      · intro hnil
        exact absurd (hmax.mpr ⟨rfl, hnil⟩) (by simp)

/-! ## C3: `get_total_volume` characterization -/

theorem volumeRow_fold_length (states : List State) :
    ∀ row : List ℚ, (states.foldl volumeRowStep row).length = row.length := by
  induction states with
  | nil => intro row; rfl
  | cons s rest ih =>
    intro row
    rw [List.foldl_cons, ih (volumeRowStep row s)]
    simp [volumeRowStep]

theorem volumeRow_fold_getD (n_levels lv : Nat) (hlv1 : 1 ≤ lv) (hlvn : lv ≤ n_levels) :
    ∀ (states : List State) (row : List ℚ), row.length = n_levels →
      (∀ s ∈ states, 1 ≤ s.patch.level ∧ s.patch.level ≤ n_levels) →
      (states.foldl volumeRowStep row).getD (lv - 1) 0 =
        row.getD (lv - 1) 0 +
          ((states.filter (fun s => s.patch.level == lv)).map
            (fun s => q0sum s * s.patch.delta.1 * s.patch.delta.2)).sum
  | [], row, _, _ => by simp
  | s :: rest, row, hrow, hwf => by
    have hs := hwf s (List.mem_cons_self s rest)
    have hrest : ∀ x ∈ rest, 1 ≤ x.patch.level ∧ x.patch.level ≤ n_levels :=
      fun x hx => hwf x (List.mem_cons_of_mem s hx)
    have hrow' : (volumeRowStep row s).length = n_levels := by
      rw [← hrow]; simp [volumeRowStep]
    rw [List.foldl_cons, volumeRow_fold_getD n_levels lv hlv1 hlvn rest _ hrow' hrest]
    by_cases hl : s.patch.level = lv
    · rw [List.filter_cons_of_pos (by simpa using hl)]
      have hidx : lv - 1 < row.length := by omega
      have hstep : (volumeRowStep row s).getD (lv - 1) 0 =
          row.getD (lv - 1) 0 + q0sum s * s.patch.delta.1 * s.patch.delta.2 := by
        unfold volumeRowStep
        rw [hl, List.getD_eq_getElem?_getD, List.getElem?_set_self hidx]
        simp [List.getD_eq_getElem?_getD]
      rw [hstep, List.map_cons, List.sum_cons]
      ring
    · rw [List.filter_cons_of_neg (by simpa using hl)]
      have hstep : (volumeRowStep row s).getD (lv - 1) 0 = row.getD (lv - 1) 0 := by
        unfold volumeRowStep
        rw [List.getD_eq_getElem?_getD, List.getElem?_set_ne (by omega),
          ← List.getD_eq_getElem?_getD]
      rw [hstep]

theorem get_total_volume_getD (soln_dir : Nat → Solution)
    (frame_bg frame_ed n_levels i : Nat) (hi : i < frame_ed - frame_bg) :
    (get_total_volume soln_dir frame_bg frame_ed n_levels).getD i [] =
      (soln_dir (frame_bg + i)).states.foldl volumeRowStep (List.replicate n_levels 0) := by
  unfold get_total_volume
  rw [List.getD_eq_getElem?_getD, List.getElem?_map, List.getElem?_range' _ _ hi]
  simp

theorem sum_flatten_replicate (row : List ℚ) :
    ∀ nx : Nat, (List.replicate nx row).flatten.sum = (nx : ℚ) * row.sum
  | 0 => by simp
  | k + 1 => by
    rw [List.replicate_succ, List.flatten_cons, List.sum_append,
      sum_flatten_replicate row k]
    push_cast
    ring

theorem q0sum_const (lv : Nat) (v : ℚ) (nx ny : Nat) (dx dy : ℚ) :
    q0sum (constPatchState lv v nx ny dx dy) = (nx : ℚ) * (ny : ℚ) * v := by
  unfold q0sum constPatchState
  rw [sum_flatten_replicate, List.sum_replicate, nsmul_eq_mul]
  ring

/-- C3: `get_total_volume` returns a `(frame count) × n_levels` table whose
entry `(i, level-1)` is the sum over all patches at that level in frame
`frame_bg + i` of `sum(q[0]) * dx * dy`, with no dry-tolerance thresholding
and no resampling; in particular a synthetic patch with constant field value
`v`, cell count `nx * ny` and cell area `dx * dy` contributes exactly
`v * (nx * ny) * (dx * dy)`. -/
theorem C3_get_total_volume (soln_dir : Nat → Solution) (frame_bg frame_ed n_levels : Nat)
    (hwf : ∀ fno, frame_bg ≤ fno → fno < frame_ed →
      ∀ s ∈ (soln_dir fno).states, 1 ≤ s.patch.level ∧ s.patch.level ≤ n_levels) :
    (get_total_volume soln_dir frame_bg frame_ed n_levels).length = frame_ed - frame_bg ∧
    (∀ row ∈ get_total_volume soln_dir frame_bg frame_ed n_levels,
      row.length = n_levels) ∧
    (∀ i lv, i < frame_ed - frame_bg → 1 ≤ lv → lv ≤ n_levels →
      ((get_total_volume soln_dir frame_bg frame_ed n_levels).getD i []).getD (lv - 1) 0 =
        (((soln_dir (frame_bg + i)).states.filter (fun s => s.patch.level == lv)).map
          (fun s => q0sum s * s.patch.delta.1 * s.patch.delta.2)).sum) ∧
    (∀ i lv v nx ny dx dy, i < frame_ed - frame_bg → 1 ≤ lv → lv ≤ n_levels →
      (soln_dir (frame_bg + i)).states = [constPatchState lv v nx ny dx dy] →
      ((get_total_volume soln_dir frame_bg frame_ed n_levels).getD i []).getD (lv - 1) 0 =
        v * ((nx : ℚ) * (ny : ℚ)) * (dx * dy)) := by
  have hentry : ∀ i lv, i < frame_ed - frame_bg → 1 ≤ lv → lv ≤ n_levels →
      ((get_total_volume soln_dir frame_bg frame_ed n_levels).getD i []).getD (lv - 1) 0 =
        (((soln_dir (frame_bg + i)).states.filter (fun s => s.patch.level == lv)).map
          (fun s => q0sum s * s.patch.delta.1 * s.patch.delta.2)).sum := by
    intro i lv hi hlv1 hlvn
    rw [get_total_volume_getD soln_dir frame_bg frame_ed n_levels i hi,
      volumeRow_fold_getD n_levels lv hlv1 hlvn _ _ (List.length_replicate _ _)
        (hwf (frame_bg + i) (by omega) (by omega))]
    simp
  refine ⟨?_, ?_, hentry, ?_⟩
  · unfold get_total_volume
    simp
  · intro row hrow
    unfold get_total_volume at hrow
    obtain ⟨fno, _, rfl⟩ := List.mem_map.mp hrow
    rw [volumeRow_fold_length]
    exact List.length_replicate _ _
  · intro i lv v nx ny dx dy hi hlv1 hlvn hstates
    rw [hentry i lv hi hlv1 hlvn, hstates]
    rw [List.filter_cons_of_pos (by simp [constPatchState])]
    simp only [List.filter_nil, List.map_cons, List.map_nil, List.sum_cons, List.sum_nil]
    rw [q0sum_const]
    show (nx : ℚ) * (ny : ℚ) * v *
        (constPatchState lv v nx ny dx dy).patch.delta.1 *
        (constPatchState lv v nx ny dx dy).patch.delta.2 + 0 =
      v * ((nx : ℚ) * (ny : ℚ)) * (dx * dy)
    show (nx : ℚ) * (ny : ℚ) * v * dx * dy + 0 = v * ((nx : ℚ) * (ny : ℚ)) * (dx * dy)
    ring

/-- A concrete directory of frames for the volume witness: every frame holds
one constant level-1 patch with value 3 on a 2 × 2 grid of 1 × 1 cells. -/
def volDir : Nat → Solution := fun _ => ⟨0, [constPatchState 1 3 2 2 1 1]⟩

/-- Witness for C3: one frame with the constant synthetic patch accumulates
exactly `v * (nx * ny) * (dx * dy) = 3 * 4 * 1`. -/
theorem C3_get_total_volume_witness :
    ((get_total_volume volDir 0 1 2).getD 0 []).getD 0 0 =
      (3 : ℚ) * (((2 : Nat) : ℚ) * ((2 : Nat) : ℚ)) * ((1 : ℚ) * (1 : ℚ)) :=
  (C3_get_total_volume volDir 0 1 2
      (fun _ _ _ s hs => by
        rcases List.mem_singleton.mp hs with rfl
        exact ⟨by decide, by decide⟩)).2.2.2
    0 1 3 2 2 1 1 (by decide) (by decide) (by decide) rfl

/-! ## C1, C2, C4: `interpolate` -/

/-- C1: for every frame and target level, if no patch at that level exists in
the frame, or the underlying merge fails with its empty-input failure (an
`IndexError` with message "list index out of range"), then `interpolate`
raises the domain-level `NoWetCellError`; and the raw empty-input merge
exception never escapes the `interpolate` boundary.  The hypothesis `hempty`
records the library behaviour the claim itself describes: merging an empty
raster stack raises exactly that `IndexError`. -/
theorem C1_interpolate_no_wet_cell (merge : MergeFn) (soln : Solution) (level : Nat)
    (dry_tol nodata : ℚ)
    (hempty : merge [] = .error (.indexError "list index out of range")) :
    ((∀ s ∈ soln.states, s.patch.level ≠ level) →
      (interpolate merge soln level dry_tol nodata).result = .error .noWetCellError) ∧
    (merge (child_rasters soln level) = .error (.indexError "list index out of range") →
      (interpolate merge soln level dry_tol nodata).result = .error .noWetCellError) ∧
    (interpolate merge soln level dry_tol nodata).result ≠
      .error (.reraised (.indexError "list index out of range")) := by
  have hcase : ∀ hm : merge (child_rasters soln level) =
      .error (.indexError "list index out of range"),
      (interpolate merge soln level dry_tol nodata).result = .error .noWetCellError := by
    intro hm
    unfold interpolate
    rw [hm]
    simp
  refine ⟨?_, hcase, ?_⟩
  · intro hnone
    have hch : child_rasters soln level = [] := by
      unfold child_rasters
      rw [List.filter_eq_nil_iff.mpr (fun s hs => by simpa using hnone s hs)]
      rfl
    exact hcase (by rw [hch, hempty])
  · rcases hm : merge (child_rasters soln level) with (msg | _) | dst
    · by_cases h : msg = "list index out of range"
      · subst h
        rw [hcase hm]
        simp
      · unfold interpolate
        rw [hm]
        simp [h]
    · unfold interpolate
      rw [hm]
      simp
    · unfold interpolate
      rw [hm]
      simp

/-- Row access through the mosaic-level mask: each row of the masked grid is
the corresponding merged row mapped through the dry-cell cutoff. -/
theorem maskGrid_getD_row (dry_tol nodata : ℚ) (g : Grid) (i : Nat) :
    (maskGrid dry_tol nodata g).getD i [] =
      (g.getD i []).map (fun v => if v < dry_tol then nodata else v) := by
  unfold maskGrid
  rw [List.getD_eq_getElem?_getD, List.getElem?_map, List.getD_eq_getElem?_getD]
  rcases g[i]? with _ | row <;> simp

theorem maskRow_getD (dry_tol nodata : ℚ) (row : List ℚ) (j : Nat) (hj : j < row.length) :
    (row.map (fun v => if v < dry_tol then nodata else v)).getD j 0 =
      if row.getD j 0 < dry_tol then nodata else row.getD j 0 := by
  rw [List.getD_eq_getElem?_getD, List.getElem?_map, List.getD_eq_getElem?_getD]
  rcases h : row[j]? with _ | v
  · rw [List.getElem?_eq_none_iff] at h
    omega
  · simp

/-- C2: on every successful `interpolate` call, every cell of the returned
raster whose merged value is below `dry_tol` equals `nodata`; and in the
trivial single-patch identity-resampling case (hypothesis `hid`: merging the
one-raster stack returns its band unchanged), every cell with native value at
least `dry_tol` equals the native value exactly. -/
theorem C2_interpolate_masking (merge : MergeFn) (soln : Solution) (level : Nat)
    (dry_tol nodata : ℚ) (out : Grid) (s : State)
    (hok : (interpolate merge soln level dry_tol nodata).result = .ok out) :
    (∃ dst, merge (child_rasters soln level) = .ok dst ∧
      out = maskGrid dry_tol nodata dst ∧
      ∀ i j, j < (dst.getD i []).length →
        (dst.getD i []).getD j 0 < dry_tol → (out.getD i []).getD j 0 = nodata) ∧
    (soln.states = [s] → s.patch.level = level →
      merge [childRasterOf s] = .ok (orient s.q0) →
      ∀ i j, j < ((orient s.q0).getD i []).length →
        dry_tol ≤ ((orient s.q0).getD i []).getD j 0 →
        (out.getD i []).getD j 0 = ((orient s.q0).getD i []).getD j 0) := by
  have hmain : ∀ dst, merge (child_rasters soln level) = .ok dst →
      out = maskGrid dry_tol nodata dst := by
    intro dst hm
    unfold interpolate at hok
    rw [hm] at hok
    simpa using hok.symm
  constructor
  · rcases hm : merge (child_rasters soln level) with e | dst
    · unfold interpolate at hok
      rw [hm] at hok
      rcases e with msg | _
      · by_cases h : msg = "list index out of range" <;> simp [h] at hok
      · simp at hok
    · refine ⟨dst, rfl, hmain dst hm, ?_⟩
      intro i j hj hlt
      rw [hmain dst hm, maskGrid_getD_row, maskRow_getD dry_tol nodata _ j hj, if_pos hlt]
  · intro hstates hlevel hid
    have hch : child_rasters soln level = [childRasterOf s] := by
      unfold child_rasters
      rw [hstates, List.filter_cons_of_pos (by simpa using hlevel)]
      rfl
    have hout : out = maskGrid dry_tol nodata (orient s.q0) := by
      apply hmain
      rw [hch]
      exact hid
    intro i j hj hge
    rw [hout, maskGrid_getD_row, maskRow_getD dry_tol nodata _ j hj,
      if_neg (not_lt.mpr hge)]

/-- The merge used by several witnesses: it fails on the empty stack exactly
the way the library does, and otherwise returns the first raster's band (for
a one-raster stack this is the identity resampling). -/
def wMerge : MergeFn := fun cs =>
  match cs with
  | [] => .error (.indexError "list index out of range")
  | c :: _ => .ok c.data

/-- Witness for C1: a frame with no patch at the target level makes
`interpolate` raise `NoWetCellError`. -/
theorem C1_interpolate_no_wet_cell_witness :
    (interpolate wMerge ⟨0, []⟩ 1 0 (-9999)).result = .error .noWetCellError :=
  (C1_interpolate_no_wet_cell wMerge ⟨0, []⟩ 1 0 (-9999) (by decide)).1 (by simp)

/-- Witness for C2: with the one-patch frame `s1`, identity resampling and
`dry_tol = 2`, the wet cell keeps its native value `2` and the dry cell
(native value `1`) is reset to `nodata = -9999`. -/
theorem C2_interpolate_masking_witness :
    (([[(2 : ℚ)], [-9999]] : Grid).getD 0 []).getD 0 0 =
      ((orient s1.q0).getD 0 []).getD 0 0 :=
  (C2_interpolate_masking wMerge ⟨0, [s1]⟩ 1 2 (-9999) [[2], [-9999]] s1
      (by decide)).2 rfl rfl (by decide) 0 0 (by decide) (by decide)

/-- C4 counterexample input: a merge call that raises an exception other than
the empty-stack `IndexError` (for example a memory or driver error). -/
def failMerge : MergeFn := fun _ => .error .otherExc

/-- C4 counterexample: interpolating a frame with one patch at the target
level while the merge raises a non-`IndexError` exception opens one temporary
in-memory raster and closes none of them before control leaves
`interpolate` — the cleanup loop is only reached on the successful path. -/
theorem C4_interpolate_cleanup_counterexample :
    (interpolate failMerge ⟨0, [s1]⟩ 1 0 (-9999)).rastersOpened = 1 ∧
    (interpolate failMerge ⟨0, [s1]⟩ 1 0 (-9999)).rastersClosed = 0 := by decide

/-- C4 (amended): the temporary in-memory rasters are all closed before
returning exactly on the successful exit path; on every error exit (the
`NoWetCellError` path and re-raised merge exceptions) none of them has been
closed when control leaves `interpolate`. -/
theorem C4_interpolate_cleanup_amended (merge : MergeFn) (soln : Solution) (level : Nat)
    (dry_tol nodata : ℚ) :
    (interpolate merge soln level dry_tol nodata).rastersClosed =
      match (interpolate merge soln level dry_tol nodata).result with
      | .ok _ => (interpolate merge soln level dry_tol nodata).rastersOpened
      | .error _ => 0 := by
  unfold interpolate
  rcases hm : merge (child_rasters soln level) with (msg | _) | dst
  · by_cases h : msg = "list index out of range" <;> simp [h]
  · rfl
  · rfl

/-! ## C8, C9: `write_soln_to_nc` -/

/-- The depth band actually stored for one frame: the interpolated raster on
success, the substituted all-`nodata` slice on `NoWetCellError`. -/
def frameSlice (merge : MergeFn) (level : Nat) (dry_tol nodata : ℚ) (nrows ncols : Nat)
    (soln : Solution) : Grid :=
  match (interpolate merge soln level dry_tol nodata).result with
  | .ok dst => dst
  | .error _ => allNodataSlice nrows ncols nodata

theorem write_go_no_abort (merge : MergeFn) (soln_dir : Nat → Solution) (level : Nat)
    (dry_tol nodata : ℚ) (nrows ncols : Nat) :
    ∀ (fnos : List Nat) (nc : NCFile),
      (∀ fno ∈ fnos, ∀ e,
        (interpolate merge (soln_dir fno) level dry_tol nodata).result = .error e →
        e = .noWetCellError) →
      write_soln_to_nc_go merge soln_dir level dry_tol nodata nrows ncols fnos nc =
        ({ time := nc.time ++ fnos.map (fun fno => (soln_dir fno).t),
           depth := nc.depth ++ fnos.map
             (fun fno => frameSlice merge level dry_tol nodata nrows ncols (soln_dir fno)) },
         none)
  | [], nc, _ => by simp [write_soln_to_nc_go]
  | fno :: rest, nc, hsafe => by
    have hrest : ∀ f ∈ rest, ∀ e,
        (interpolate merge (soln_dir f) level dry_tol nodata).result = .error e →
        e = .noWetCellError :=
      fun f hf => hsafe f (List.mem_cons_of_mem fno hf)
    have hhead := hsafe fno (List.mem_cons_self fno rest)
    have ih := write_go_no_abort merge soln_dir level dry_tol nodata nrows ncols rest
    rw [write_soln_to_nc_go]
    rcases hr : (interpolate merge (soln_dir fno) level dry_tol nodata).result with e | dst
    · have he : e = .noWetCellError := hhead e hr
      subst he
      have hslice : frameSlice merge level dry_tol nodata nrows ncols (soln_dir fno) =
          allNodataSlice nrows ncols nodata := by
        unfold frameSlice
        rw [hr]
      unfold write_frame
      rw [hr]
      dsimp only
      rw [ih _ hrest]
      simp [hslice]
    · have hslice : frameSlice merge level dry_tol nodata nrows ncols (soln_dir fno) = dst := by
        unfold frameSlice
        rw [hr]
      unfold write_frame
      rw [hr]
      dsimp only
      rw [ih _ hrest]
      simp [hslice]

theorem write_soln_to_nc_no_abort (merge : MergeFn) (soln_dir : Nat → Solution)
    (frame_bg frame_ed level : Nat) (dry_tol nodata : ℚ) (nrows ncols : Nat)
    (hsafe : ∀ fno, frame_bg ≤ fno → fno < frame_ed → ∀ e,
      (interpolate merge (soln_dir fno) level dry_tol nodata).result = .error e →
      e = .noWetCellError) :
    write_soln_to_nc merge soln_dir frame_bg frame_ed level dry_tol nodata nrows ncols =
      ({ time := (List.range' frame_bg (frame_ed - frame_bg)).map
           (fun fno => (soln_dir fno).t),
         depth := (List.range' frame_bg (frame_ed - frame_bg)).map
           (fun fno => frameSlice merge level dry_tol nodata nrows ncols (soln_dir fno)) },
       none) := by
  unfold write_soln_to_nc
  rw [write_go_no_abort merge soln_dir level dry_tol nodata nrows ncols _ _
    (fun fno hf e => hsafe fno (by
        have := List.mem_range'_1.mp hf
        omega)
      (by
        have := List.mem_range'_1.mp hf
        omega) e)]
  simp

theorem range'_map_getD_eq {α : Type} (d : α) (f : Nat → α) (s n i : Nat) (hi : i < n) :
    ((List.range' s n).map f).getD i d = f (s + i) := by
  rw [List.getD_eq_getElem?_getD, List.getElem?_map, List.getElem?_range' _ _ hi]
  simp

/-- C8: in the multi-frame NetCDF writer, a frame whose mosaic interpolation
raises `NoWetCellError` gets an all-`nodata` depth slice and the writer
continues to the next frame instead of aborting the time series: under the
hypothesis that no frame raises anything other than `NoWetCellError`, the
whole range is written (`none` abort flag, one band per frame), and every
`NoWetCellError` frame's band is the all-`nodata` slice. -/
theorem C8_netcdf_recovers_no_wet_cell (merge : MergeFn) (soln_dir : Nat → Solution)
    (frame_bg frame_ed level : Nat) (dry_tol nodata : ℚ) (nrows ncols : Nat)
    (hsafe : ∀ fno, frame_bg ≤ fno → fno < frame_ed → ∀ e,
      (interpolate merge (soln_dir fno) level dry_tol nodata).result = .error e →
      e = .noWetCellError) :
    (∀ nc soln,
      (interpolate merge soln level dry_tol nodata).result = .error .noWetCellError →
      write_frame merge level dry_tol nodata nrows ncols nc soln =
        ({ time := nc.time ++ [soln.t],
           depth := nc.depth ++ [allNodataSlice nrows ncols nodata] }, none)) ∧
    (write_soln_to_nc merge soln_dir frame_bg frame_ed level dry_tol nodata nrows ncols).2 =
      none ∧
    (write_soln_to_nc merge soln_dir frame_bg frame_ed level dry_tol nodata
      nrows ncols).1.depth.length = frame_ed - frame_bg ∧
    (∀ i, i < frame_ed - frame_bg →
      (interpolate merge (soln_dir (frame_bg + i)) level dry_tol nodata).result =
        .error .noWetCellError →
      (write_soln_to_nc merge soln_dir frame_bg frame_ed level dry_tol nodata
        nrows ncols).1.depth.getD i [] = allNodataSlice nrows ncols nodata) := by
  have hkey := write_soln_to_nc_no_abort merge soln_dir frame_bg frame_ed level
    dry_tol nodata nrows ncols hsafe
  refine ⟨?_, ?_, ?_, ?_⟩
  · intro nc soln hr
    unfold write_frame
    rw [hr]
  · rw [hkey]
  · rw [hkey]
    simp
  · intro i hi hr
    rw [hkey]
    show ((List.range' frame_bg (frame_ed - frame_bg)).map
      (fun fno => frameSlice merge level dry_tol nodata nrows ncols (soln_dir fno))).getD i [] =
      allNodataSlice nrows ncols nodata
    rw [range'_map_getD_eq [] _ frame_bg (frame_ed - frame_bg) i hi]
    unfold frameSlice
    rw [hr]

/-- C9: the writer records each frame's simulation time into `time[band]`
before attempting the depth interpolation for that band (first conjunct: the
time is appended whatever the interpolation outcome, including the abort
path); consequently, under the no-abort hypothesis, every band's time equals
its frame's time, the time and depth axes have equal length, and a frame
recovered from `NoWetCellError` carries its correct time next to the
substituted all-`nodata` slice. -/
theorem C9_netcdf_time_alignment (merge : MergeFn) (soln_dir : Nat → Solution)
    (frame_bg frame_ed level : Nat) (dry_tol nodata : ℚ) (nrows ncols : Nat)
    (hsafe : ∀ fno, frame_bg ≤ fno → fno < frame_ed → ∀ e,
      (interpolate merge (soln_dir fno) level dry_tol nodata).result = .error e →
      e = .noWetCellError) :
    (∀ nc soln, (write_frame merge level dry_tol nodata nrows ncols nc soln).1.time =
      nc.time ++ [soln.t]) ∧
    (write_soln_to_nc merge soln_dir frame_bg frame_ed level dry_tol nodata
        nrows ncols).1.time.length =
      (write_soln_to_nc merge soln_dir frame_bg frame_ed level dry_tol nodata
        nrows ncols).1.depth.length ∧
    (∀ i, i < frame_ed - frame_bg →
      (write_soln_to_nc merge soln_dir frame_bg frame_ed level dry_tol nodata
        nrows ncols).1.time.getD i 0 = (soln_dir (frame_bg + i)).t) ∧
    (∀ i, i < frame_ed - frame_bg →
      (interpolate merge (soln_dir (frame_bg + i)) level dry_tol nodata).result =
        .error .noWetCellError →
      (write_soln_to_nc merge soln_dir frame_bg frame_ed level dry_tol nodata
          nrows ncols).1.time.getD i 0 = (soln_dir (frame_bg + i)).t ∧
      (write_soln_to_nc merge soln_dir frame_bg frame_ed level dry_tol nodata
          nrows ncols).1.depth.getD i [] = allNodataSlice nrows ncols nodata) := by
  have hkey := write_soln_to_nc_no_abort merge soln_dir frame_bg frame_ed level
    dry_tol nodata nrows ncols hsafe
  have htime : ∀ i, i < frame_ed - frame_bg →
      (write_soln_to_nc merge soln_dir frame_bg frame_ed level dry_tol nodata
        nrows ncols).1.time.getD i 0 = (soln_dir (frame_bg + i)).t := by
    intro i hi
    rw [hkey]
    show ((List.range' frame_bg (frame_ed - frame_bg)).map
      (fun fno => (soln_dir fno).t)).getD i 0 = (soln_dir (frame_bg + i)).t
    rw [range'_map_getD_eq 0 _ frame_bg (frame_ed - frame_bg) i hi]
  refine ⟨?_, ?_, htime, ?_⟩
  · intro nc soln
    unfold write_frame
    rcases hr : (interpolate merge soln level dry_tol nodata).result with e | dst
    · rcases e <;> rfl
    · rfl
  · rw [hkey]
    simp
  · intro i hi hr
    refine ⟨htime i hi, ?_⟩
    rw [hkey]
    show ((List.range' frame_bg (frame_ed - frame_bg)).map
      (fun fno => frameSlice merge level dry_tol nodata nrows ncols (soln_dir fno))).getD i [] =
      allNodataSlice nrows ncols nodata
    rw [range'_map_getD_eq [] _ frame_bg (frame_ed - frame_bg) i hi]
    unfold frameSlice
    rw [hr]

/-- A concrete two-frame directory for the writer witnesses: frame 0 has no
patches (so its merge raises the empty-stack failure), frame 1 holds the wet
patch `s1`. -/
def ncDir : Nat → Solution := fun fno => if fno = 0 then ⟨5, []⟩ else ⟨7, [s1]⟩

theorem ncDir_safe : ∀ fno, 0 ≤ fno → fno < 2 → ∀ e,
    (interpolate wMerge (ncDir fno) 1 2 (-9999)).result = .error e →
    e = .noWetCellError := by
  intro fno _ h2 e he
  have hcases : fno = 0 ∨ fno = 1 := by omega
  rcases hcases with rfl | rfl
  · have h0 : (interpolate wMerge (ncDir 0) 1 2 (-9999)).result =
        .error .noWetCellError := by decide
    rw [h0] at he
    injection he with h
    exact h.symm
  · have h1 : (interpolate wMerge (ncDir 1) 1 2 (-9999)).result =
        .ok [[2], [-9999]] := by decide
    rw [h1] at he
    simp at he

/-- Witness for C8: in the two-frame run, frame 0 raises `NoWetCellError` and
its band is the substituted all-`nodata` slice while the run completes. -/
theorem C8_netcdf_recovers_witness :
    (write_soln_to_nc wMerge ncDir 0 2 1 2 (-9999) 2 1).1.depth.getD 0 [] =
      allNodataSlice 2 1 (-9999) :=
  (C8_netcdf_recovers_no_wet_cell wMerge ncDir 0 2 1 2 (-9999) 2 1 ncDir_safe).2.2.2
    0 (by decide) (by decide)

/-- Witness for C9: the recovered frame 0 still carries its simulation time
`5` in the `time` coordinate. -/
theorem C9_netcdf_time_alignment_witness :
    (write_soln_to_nc wMerge ncDir 0 2 1 2 (-9999) 2 1).1.time.getD 0 0 =
      (ncDir (0 + 0)).t :=
  (C9_netcdf_time_alignment wMerge ncDir 0 2 1 2 (-9999) 2 1 ncDir_safe).2.2.1
    0 (by decide)

end GeoclawLandspill
